import Mathlib

/-!
Shallow embedding of the `sc16is7x0` Go package (driver for the SC16IS740/750/760
UART-over-I2C bridge chip).

The underlying I2C bus is modelled as an oracle (`Bus`): responses to register
reads and writes may depend on the whole history of bus transactions performed
so far (the transaction log, a `List BusOp`).  Every driver operation is a
state-passing function taking the bus oracle and the current log and returning
its result together with the extended log.  Wall-clock time, used by the poll
loops in `WriteByte` and `Read`, is modelled by a function `clock : Nat → Nat`
giving the time observed at the n-th `time.Now()` call inside the operation
(call 0 is the one at entry that fixes the deadline).  The unbounded Go
`for {}` poll loops take an explicit fuel parameter; running out of fuel yields
the dedicated `Res.diverge` outcome.  A Go runtime panic (integer division by
zero in `setBaudRate`) is the `Res.crash` outcome.  Machine integers are
modelled as `Nat` with explicit `% 256` (byte) and `% 2^32` (uint32) masking
where the Go types wrap.
-/

namespace sc16is7x0

/-- Bus transaction as seen on the wire: a register read at a raw (already
shifted) address, a register write of a byte value, or closing the handle. -/
inductive BusOp : Type
  | read (addr : Nat)
  | write (addr : Nat) (value : Nat)
  | close
deriving DecidableEq, Repr

/-- Oracle for the external I2C collaborator.  `readResp log addr` is the
response (byte or bus-error code) to a read at raw address `addr` after the
transactions in `log`; similarly for writes (`none` = success) and `close`.
`acquire` is the outcome of `i2c.NewI2C` at `Open` time (`none` = success). -/
structure Bus : Type where
  readResp : List BusOp → Nat → Except Nat Nat
  writeResp : List BusOp → Nat → Nat → Option Nat
  closeResp : List BusOp → Option Nat
  acquire : Option Nat

/-- Errors returned by the driver: a bus error propagated verbatim from the
collaborator (payload is the collaborator's error code), the poll timeout
(`ErrTimeout`), the scratchpad self-test mismatch (`ErrorScratchpad`) and the
data-bits validation failure (`ErrUnsupportedDataBits`). -/
inductive DriverErr : Type
  | busErr (e : Nat)
  | timeout
  | scratchpadMismatch
  | unsupportedDataBits
deriving DecidableEq, Repr

/-- Outcome of a driver operation: a normal return value, a Go error return, a
Go runtime panic (`crash`, only from division by zero), or fuel exhaustion of a
modelled unbounded loop (`diverge`). -/
inductive Res (α : Type) : Type
  | ok (a : α)
  | err (e : DriverErr)
  | crash
  | diverge
deriving DecidableEq, Repr

-- Register addresses (general register set), from the Go constant block.
def regRHR : Nat := 0x00
def regTHR : Nat := 0x00
def regIER : Nat := 0x01
def regFCR : Nat := 0x02
def regIIR : Nat := 0x02
def regLCR : Nat := 0x03
def regMCR : Nat := 0x04
def regLSR : Nat := 0x05
def regMSR : Nat := 0x06
def regSPR : Nat := 0x07
def regTXLVL : Nat := 0x08
def regRXLVL : Nat := 0x09

-- Special register set (requires LCR[7] = 1).
def regDLL : Nat := 0x00
def regDLH : Nat := 0x01

/-- Device state kept by the driver handle (`SC16IS7X0` struct): crystal
frequency in Hz and the read/write timeout.  The i2c handle itself is passed
separately as the `Bus` oracle. -/
structure SC16IS7X0 : Type where
  xtalFreq : Nat
  timeout : Nat

def DefaultSize : Nat := 8

/-- Open-time configuration (the Go `Config` struct); all numeric fields. -/
structure Config : Type where
  Address : Nat
  Bus : Nat
  Baud : Nat
  XtalFreq : Nat
  Timeout : Nat
  Size : Nat
  Parity : Nat
  StopBits : Nat

def Stop1 : Nat := 1
def Stop1Half : Nat := 15
def Stop2 : Nat := 2

def ParityNone : Nat := 78
def ParityOdd : Nat := 79
def ParityEven : Nat := 69
def ParityMark : Nat := 77
def ParitySpace : Nat := 83

def RxDFifo : Nat := 0
def TxDFifo : Nat := 1
def BothFifo : Nat := 2

/-- readReg: issues a bus read at `reg << 3` (byte shift, wraps mod 256);
the response of `ReadRegU8` is a byte. -/
def readReg (bus : Bus) (log : List BusOp) (reg : Nat) : Except Nat Nat × List BusOp :=
  match bus.readResp log ((reg <<< 3) % 256) with
  | .ok b => (.ok (b % 256), log ++ [.read ((reg <<< 3) % 256)])
  | .error e => (.error e, log ++ [.read ((reg <<< 3) % 256)])

/-- writeReg: issues a bus write of byte `value` at `reg << 3`. -/
def writeReg (bus : Bus) (log : List BusOp) (reg value : Nat) : Option Nat × List BusOp :=
  (bus.writeResp log ((reg <<< 3) % 256) (value % 256),
   log ++ [.write ((reg <<< 3) % 256) (value % 256)])

/-- updateRegBit: read-modify-write of a single bit (Go `flags |= 1<<flag` /
`flags &^= 1<<flag` on bytes). -/
def updateRegBit (bus : Bus) (log : List BusOp) (reg flag : Nat) (value : Bool) :
    Res Unit × List BusOp :=
  match readReg bus log reg with
  | (.error e, l) => (.err (.busErr e), l)
  | (.ok flags, l) =>
    let flags' := if value then flags ||| ((1 <<< flag) % 256)
                  else flags &&& (255 ^^^ ((1 <<< flag) % 256))
    match writeReg bus l reg flags' with
    | (none, l1) => (.ok (), l1)
    | (some e, l1) => (.err (.busErr e), l1)

/-- peekRegBit: read-only test of a single bit. -/
def peekRegBit (bus : Bus) (log : List BusOp) (reg flag : Nat) : Res Bool × List BusOp :=
  match readReg bus log reg with
  | (.error e, l) => (.err (.busErr e), l)
  | (.ok current, l) => (.ok (current &&& ((1 <<< flag) % 256) != 0), l)

/-- setBaudRate: reads MCR bit 7 to pick the prescaler, computes the integer
divisor (uint32 arithmetic; `baud * 16` wraps mod 2^32 and a zero denominator
is a Go runtime panic), then writes the divisor latch bytes under LCR[7]. -/
def setBaudRate (v : SC16IS7X0) (bus : Bus) (baud : Nat) (log : List BusOp) :
    Res Unit × List BusOp :=
  match peekRegBit bus log regMCR 7 with
  | (.err e, l) => (.err e, l)
  | (.ok clkDiv, l) =>
    let prescaler : Nat := if clkDiv then 4 else 1
    if (baud * 16) % 4294967296 = 0 then (.crash, l)
    else
      let divisor : Nat := ((v.xtalFreq % 4294967296) / prescaler) / ((baud * 16) % 4294967296)
      let lowerDivisor : Nat := divisor &&& 0xFF
      let higherDivisor : Nat := (divisor &&& 0xFF00) >>> 8
      match updateRegBit bus l regLCR 7 true with
      | (.ok _, l1) =>
        match writeReg bus l1 regDLL lowerDivisor with
        | (none, l2) =>
          match writeReg bus l2 regDLH higherDivisor with
          | (none, l3) =>
            match updateRegBit bus l3 regLCR 7 false with
            | (.ok _, l4) => (.ok (), l4)
            | other => other
          | (some e, l3) => (.err (.busErr e), l3)
        | (some e, l2) => (.err (.busErr e), l2)
      | (other, l1) => (other, l1)
  | (.crash, l) => (.crash, l)
  | (.diverge, l) => (.diverge, l)

def testValue : Nat := 0xde

/-- testChip: scratchpad round-trip self test. -/
def testChip (bus : Bus) (log : List BusOp) : Res Unit × List BusOp :=
  match writeReg bus log regSPR testValue with
  | (some e, l) => (.err (.busErr e), l)
  | (none, l) =>
    match readReg bus l regSPR with
    | (.error e, l1) => (.err (.busErr e), l1)
    | (.ok rv, l1) => if rv != testValue then (.err .scratchpadMismatch, l1) else (.ok (), l1)

/-- composeLCR: the Line Control Register byte composed by `setUARTAttributes`
for a valid data-bit base value (Go control flow after the data-bits
validation). -/
def composeLCR (base stopBits parity : Nat) : Nat :=
  let lcr1 := if stopBits != Stop1 then base ||| (1 <<< 2) else base
  if parity = ParityNone then lcr1
  else if parity = ParityOdd then lcr1 ||| (1 <<< 3)
  else if parity = ParityEven then lcr1 ||| (3 <<< 3)
  else if parity = ParityMark then lcr1 ||| (5 <<< 3)
  else if parity = ParitySpace then lcr1 ||| (7 <<< 3)
  else lcr1

/-- setUARTAttributesWrite: the final step of `setUARTAttributes`: write the
composed LCR byte in a single transaction, propagating the bus result. -/
def setUARTAttributesWrite (bus : Bus) (base stopBits parity : Nat) (log : List BusOp) :
    Res Unit × List BusOp :=
  match writeReg bus log regLCR (composeLCR base stopBits parity) with
  | (none, l) => (.ok (), l)
  | (some e, l) => (.err (.busErr e), l)

/-- setUARTAttributes: validates the data-bit count, composes the LCR byte and
writes it in a single transaction. -/
def setUARTAttributes (bus : Bus) (dataBits stopBits parity : Nat) (log : List BusOp) :
    Res Unit × List BusOp :=
  if dataBits = 5 then setUARTAttributesWrite bus 0 stopBits parity log
  else if dataBits = 6 then setUARTAttributesWrite bus 1 stopBits parity log
  else if dataBits = 7 then setUARTAttributesWrite bus 2 stopBits parity log
  else if dataBits = 8 then setUARTAttributesWrite bus 3 stopBits parity log
  else (.err .unsupportedDataBits, log)

/-- pollLoop: the Go `for {}` readiness loop shared (in shape) by `WriteByte`
(LSR bit 5) and `Read` (LSR bit 0): peek the bit; on bus error return it; when
set, stop; otherwise if `deadline < now` return the timeout error, else loop.
`i` counts the loop iterations so that the deadline check of iteration `i`
observes `clock (i+1)`; fuel exhaustion is `diverge`. -/
def pollLoop (bus : Bus) (clock : Nat → Nat) (deadline reg flag : Nat) :
    Nat → List BusOp → Nat → Res Unit × List BusOp
  | 0, log, _ => (.diverge, log)
  | fuel + 1, log, i =>
    match peekRegBit bus log reg flag with
    | (.ok ready, l) =>
      if ready then (.ok (), l)
      else if deadline < clock (i + 1) then (.err .timeout, l)
      else pollLoop bus clock deadline reg flag fuel l (i + 1)
    | (.err e, l) => (.err e, l)
    | (.crash, l) => (.crash, l)
    | (.diverge, l) => (.diverge, l)

/-- WriteByte: poll LSR bit 5 (transmit holding register empty) until set or
timeout (deadline fixed at entry: `clock 0 + timeout`), then write the byte to
the transmit holding register. -/
def WriteByte (v : SC16IS7X0) (bus : Bus) (clock : Nat → Nat) (fuel : Nat) (c : Nat)
    (log : List BusOp) : Res Unit × List BusOp :=
  match pollLoop bus clock (clock 0 + v.timeout) regLSR 5 fuel log 0 with
  | (.ok _, l) =>
    match writeReg bus l regTHR c with
    | (none, l1) => (.ok (), l1)
    | (some e, l1) => (.err (.busErr e), l1)
  | other => other

/-- writeLoop: the body of `Write`: write the bytes one at a time, aborting
with `(-1, err)` at the first failure; `clocks i` is the clock of the i-th
`WriteByte` call (each call computes its own deadline at its entry). -/
def writeLoop (v : SC16IS7X0) (bus : Bus) (clocks : Nat → Nat → Nat) (fuel : Nat) :
    List Nat → Nat → Nat → List BusOp → Res (Int × Option DriverErr) × List BusOp
  | [], _, written, log => (.ok (Int.ofNat written, none), log)
  | val :: rest, idx, written, log =>
    match WriteByte v bus (clocks idx) fuel val log with
    | (.ok _, l) => writeLoop v bus clocks fuel rest (idx + 1) (written + 1) l
    | (.err e, l) => (.ok (-1, some e), l)
    | (.crash, l) => (.crash, l)
    | (.diverge, l) => (.diverge, l)

/-- Write: buffered write (`io.Writer`), returning `(written, nil)` on success
and `(-1, err)` on the first per-byte failure. -/
def Write (v : SC16IS7X0) (bus : Bus) (clocks : Nat → Nat → Nat) (fuel : Nat)
    (p : List Nat) (log : List BusOp) : Res (Int × Option DriverErr) × List BusOp :=
  writeLoop v bus clocks fuel p 0 0 log

/-- ReadByte: single unconditional read of the receive holding register. -/
def ReadByte (bus : Bus) (log : List BusOp) : Except Nat Nat × List BusOp :=
  readReg bus log regRHR

/-- fifoDataLength: reads the receive FIFO level register; `(-1, err)` on bus
error, else the level as a non-negative int. -/
def fifoDataLength (bus : Bus) (log : List BusOp) : (Int × Option DriverErr) × List BusOp :=
  match readReg bus log regRXLVL with
  | (.error e, l) => ((-1, some (.busErr e)), l)
  | (.ok len, l) => ((Int.ofNat len, none), l)

/-- readCopy: the copy loop of `Read`: `rlen` reads of the receive holding
register into the buffer; a bus error at index `i` returns `(i, err)` with the
`i` bytes copied so far, completion returns the full count. -/
def readCopy (bus : Bus) : Nat → List BusOp → List Nat →
    (Int × Option DriverErr × List Nat) × List BusOp
  | 0, log, acc => ((Int.ofNat acc.length, none, acc), log)
  | n + 1, log, acc =>
    match ReadByte bus log with
    | (.error e, l) => ((Int.ofNat acc.length, some (.busErr e), acc), l)
    | (.ok b, l) => readCopy bus n l (acc ++ [b])

/-- Read: poll LSR bit 0 (data ready) until set or timeout (`-1` on bus error,
`-2` on timeout), query the receive FIFO level, then copy
`min (buffer length) (FIFO level)` bytes one register access at a time.  The
returned list is the prefix of the buffer actually filled. -/
def Read (v : SC16IS7X0) (bus : Bus) (clock : Nat → Nat) (fuel : Nat) (plen : Nat)
    (log : List BusOp) : Res (Int × Option DriverErr × List Nat) × List BusOp :=
  match pollLoop bus clock (clock 0 + v.timeout) regLSR 0 fuel log 0 with
  | (.err .timeout, l) => (.ok (-2, some .timeout, []), l)
  | (.err e, l) => (.ok (-1, some e, []), l)
  | (.crash, l) => (.crash, l)
  | (.diverge, l) => (.diverge, l)
  | (.ok _, l) =>
    let blen : Int := Int.ofNat plen
    match fifoDataLength bus l with
    | ((_, some e), l1) => (.ok (-1, some e, []), l1)
    | ((flen, none), l1) =>
      let rlen : Int := if blen < flen then blen else flen
      (match readCopy bus rlen.toNat l1 [] with
       | ((n, oe, bs), l2) => (.ok (n, oe, bs), l2))

/-- ClearFifo: read IIR to detect whether FIFO mode is enabled (IIR bits 7:6),
preserve that as FCR bit 0, set the clear-receive and/or clear-transmit bits
per the selector, and write the FIFO Control Register. -/
def ClearFifo (bus : Bus) (clearTarget : Nat) (log : List BusOp) : Res Unit × List BusOp :=
  match readReg bus log regIIR with
  | (.error e, l) => (.err (.busErr e), l)
  | (.ok iirFlags, l) =>
    let fcrFlags0 : Nat := if (iirFlags &&& 0xC0) != 0 then 1 else 0
    let fcrFlags : Nat :=
      if clearTarget = RxDFifo then fcrFlags0 ||| 0x02
      else if clearTarget = TxDFifo then fcrFlags0 ||| 0x04
      else if clearTarget = BothFifo then fcrFlags0 ||| 0x06
      else fcrFlags0
    match writeReg bus l regFCR fcrFlags with
    | (none, l1) => (.ok (), l1)
    | (some e, l1) => (.err (.busErr e), l1)

/-- enableFifo: write 1 (enable) or 0 (disable) to the FIFO Control Register. -/
def enableFifo (bus : Bus) (useFifo : Bool) (log : List BusOp) : Res Unit × List BusOp :=
  match writeReg bus log regFCR (if useFifo then 1 else 0) with
  | (none, l) => (.ok (), l)
  | (some e, l) => (.err (.busErr e), l)

/-- Close: release the underlying bus handle. -/
def Close (bus : Bus) (log : List BusOp) : Option Nat × List BusOp :=
  (bus.closeResp log, log ++ [.close])

/-- Open: default the zero-valued configuration fields (note: `Baud` gets no
default), acquire the bus handle, then run self-test → baud → FIFO enable →
line attributes → clear both FIFOs; any step's error closes the handle and is
returned. -/
def Open (conf : Config) (bus : Bus) : Res SC16IS7X0 × List BusOp :=
  let size := if conf.Size = 0 then DefaultSize else conf.Size
  let parityType := if conf.Parity = 0 then ParityNone else conf.Parity
  let stopBits := if conf.StopBits = 0 then Stop1 else conf.StopBits
  let timeout := if conf.Timeout = 0 then 1000000000 else conf.Timeout
  match bus.acquire with
  | some e => (.err (.busErr e), [])
  | none =>
    let v : SC16IS7X0 := { xtalFreq := conf.XtalFreq, timeout := timeout }
    match testChip bus [] with
    | (.ok _, l) =>
      match setBaudRate v bus conf.Baud l with
      | (.ok _, l1) =>
        match enableFifo bus true l1 with
        | (.ok _, l2) =>
          match setUARTAttributes bus size stopBits parityType l2 with
          | (.ok _, l3) =>
            match ClearFifo bus BothFifo l3 with
            | (.ok _, l4) => (.ok v, l4)
            | (.err e, l4) => (.err e, (Close bus l4).2)
            | (.crash, l4) => (.crash, l4)
            | (.diverge, l4) => (.diverge, l4)
          | (.err e, l3) => (.err e, (Close bus l3).2)
          | (.crash, l3) => (.crash, l3)
          | (.diverge, l3) => (.diverge, l3)
        | (.err e, l2) => (.err e, (Close bus l2).2)
        | (.crash, l2) => (.crash, l2)
        | (.diverge, l2) => (.diverge, l2)
      | (.err e, l1) => (.err e, (Close bus l1).2)
      | (.crash, l1) => (.crash, l1)
      | (.diverge, l1) => (.diverge, l1)
    | (.err e, l) => (.err e, (Close bus l).2)
    | (.crash, l) => (.crash, l)
    | (.diverge, l) => (.diverge, l)

/-! Test doubles: bus oracles used to witness the theorems on concrete runs. -/

/-- mkOkBus: a bus on which every transaction succeeds; reads are answered by
`rv` from the history and the raw address. -/
def mkOkBus (rv : List BusOp → Nat → Nat) : Bus :=
  { readResp := fun l a => .ok (rv l a)
    writeResp := fun _ _ _ => none
    closeResp := fun _ => none
    acquire := none }

/-- okBus: a history-free all-success bus. -/
def okBus (rv : Nat → Nat) : Bus :=
  mkOkBus (fun _ a => rv a)

/-- busA: all-success bus whose scratchpad register echoes the self-test
sentinel and whose other registers read as 0. -/
def busA : Bus := okBus (fun addr => if addr = 56 then 222 else 0)

/-- busReady: all-success bus reporting data-ready (LSR bit 0 set), a receive
FIFO level of 3, and 171 in the receive holding register. -/
def busReady : Bus := okBus (fun addr => if addr = 40 then 1 else if addr = 72 then 3 else 171)

/-- busNever: all-success bus on which every register reads as 0 (so neither
readiness bit is ever set and the scratchpad readback mismatches). -/
def busNever : Bus := okBus (fun _ => 0)

/-- busFifoOn: all-success bus whose interrupt identification register reports
FIFO mode enabled (bits 7:6 set). -/
def busFifoOn : Bus := okBus (fun _ => 0xC0)

/-- busLsrErr: bus failing every Line Status Register read with bus error 7;
all other transactions succeed. -/
def busLsrErr : Bus :=
  { readResp := fun _ a => if a = 40 then .error 7 else .ok 0
    writeResp := fun _ _ _ => none
    closeResp := fun _ => none
    acquire := none }

/-- busCopyErr: bus reporting data-ready and FIFO level 4, whose receive
holding register fails with bus error 9 from the third read on. -/
def busCopyErr : Bus :=
  { readResp := fun log a =>
      if a = 0 ∧ log.count (BusOp.read 0) ≥ 2 then .error 9
      else .ok (if a = 40 then 1 else if a = 72 then 4 else 171)
    writeResp := fun _ _ _ => none
    closeResp := fun _ => none
    acquire := none }

/-- parityCodeSpec: the parity code of the specification (None=0, Odd=1,
Even=3, Mark=5, Space=7, any other value 0), stated with the same branch order
as the source for comparison with `composeLCR`. -/
def parityCodeSpec (parity : Nat) : Nat :=
  if parity = ParityNone then 0
  else if parity = ParityOdd then 1
  else if parity = ParityEven then 3
  else if parity = ParityMark then 5
  else if parity = ParitySpace then 7
  else 0

/-- composeLCR_spec: for a data-bits base value in 0..3, the composed Line
Control Register byte is a byte, its bits 1:0 are the base, bit 2 records a
non-One stop-bit setting and bits 5:3 are the parity code. -/
theorem composeLCR_spec (base stopBits parity : Nat) (hb : base ≤ 3) :
    composeLCR base stopBits parity % 256 = composeLCR base stopBits parity ∧
    composeLCR base stopBits parity &&& 3 = base ∧
    (composeLCR base stopBits parity >>> 2) &&& 1 = (if stopBits = Stop1 then 0 else 1) ∧
    (composeLCR base stopBits parity >>> 3) &&& 7 = parityCodeSpec parity := by
  interval_cases base <;>
    simp only [composeLCR, parityCodeSpec, bne_iff_ne, ne_eq, ite_not] <;>
    split_ifs <;> decide

/-- Claim C1: for every dataBits in {5,6,7,8}, every stopBits and every parity
value, setUARTAttributes composes a single Line Control Register byte whose
bits 1:0 are dataBits − 5, whose bit 2 is 1 exactly when stopBits is not Stop1
and whose bits 5:3 are the parity code (None=0, Odd=1, Even=3, Mark=5,
Space=7, any unrecognized parity 0), and issues exactly one register-write
transaction of that byte to the Line Control Register, with no error other
than what the bus itself reports (in particular an unrecognized parity raises
no error). -/
theorem spec_C1 (bus : Bus) (dataBits stopBits parity : Nat) (log : List BusOp)
    (hdb : dataBits = 5 ∨ dataBits = 6 ∨ dataBits = 7 ∨ dataBits = 8) :
    ∃ lcr : Nat,
      setUARTAttributes bus dataBits stopBits parity log =
        ((match bus.writeResp log 24 lcr with
          | none => Res.ok ()
          | some e => Res.err (.busErr e)), log ++ [.write 24 lcr]) ∧
      lcr &&& 3 = dataBits - 5 ∧
      (lcr >>> 2) &&& 1 = (if stopBits = Stop1 then 0 else 1) ∧
      (lcr >>> 3) &&& 7 = parityCodeSpec parity := by
  have main : ∀ base : Nat, base ≤ 3 →
      ∃ lcr : Nat,
        setUARTAttributesWrite bus base stopBits parity log =
          ((match bus.writeResp log 24 lcr with
            | none => Res.ok ()
            | some e => Res.err (.busErr e)), log ++ [.write 24 lcr]) ∧
        lcr &&& 3 = base ∧
        (lcr >>> 2) &&& 1 = (if stopBits = Stop1 then 0 else 1) ∧
        (lcr >>> 3) &&& 7 = parityCodeSpec parity := by
    intro base hb
    obtain ⟨hmod, hand, hstop, hpar⟩ := composeLCR_spec base stopBits parity hb
    refine ⟨composeLCR base stopBits parity, ?_, hand, hstop, hpar⟩
    show (match writeReg bus log regLCR (composeLCR base stopBits parity) with
          | (none, l) => (Res.ok (), l)
          | (some e, l) => (Res.err (.busErr e), l)) = _
    unfold writeReg
    rw [show ((regLCR <<< 3) % 256) = 24 from rfl, hmod]
    cases bus.writeResp log 24 (composeLCR base stopBits parity) <;> rfl
  rcases hdb with rfl | rfl | rfl | rfl
  · simpa [setUARTAttributes] using main 0 (by norm_num)
  · simpa [setUARTAttributes] using main 1 (by norm_num)
  · simpa [setUARTAttributes] using main 2 (by norm_num)
  · simpa [setUARTAttributes] using main 3 (by norm_num)

/-- Witness for C1: on an all-success bus, eight data bits, two stop bits and
even parity compose and write the single LCR byte 31 = 0b011111. -/
theorem spec_C1_witness :
    ∃ lcr : Nat,
      setUARTAttributes busA 8 2 69 [] =
        ((match busA.writeResp [] 24 lcr with
          | none => Res.ok ()
          | some e => Res.err (.busErr e)), [] ++ [.write 24 lcr]) ∧
      lcr &&& 3 = 8 - 5 ∧
      (lcr >>> 2) &&& 1 = (if 2 = Stop1 then 0 else 1) ∧
      (lcr >>> 3) &&& 7 = parityCodeSpec 69 :=
  spec_C1 busA 8 2 69 [] (Or.inr (Or.inr (Or.inr rfl)))

/-- Claim C6: for every dataBits value outside {5,6,7,8}, setUARTAttributes
fails with the dedicated unsupported-data-bits error and performs no register
write at all: the transaction log is unchanged. -/
theorem spec_C6 (bus : Bus) (dataBits stopBits parity : Nat) (log : List BusOp)
    (h5 : dataBits ≠ 5) (h6 : dataBits ≠ 6) (h7 : dataBits ≠ 7) (h8 : dataBits ≠ 8) :
    setUARTAttributes bus dataBits stopBits parity log = (.err .unsupportedDataBits, log) := by
  simp [setUARTAttributes, h5, h6, h7, h8]

/-- Witness for C6: nine data bits fail with the unsupported-data-bits error
and leave the transaction log empty. -/
theorem spec_C6_witness :
    setUARTAttributes busA 9 1 78 [] = (.err .unsupportedDataBits, []) :=
  spec_C6 busA 9 1 78 [] (by decide) (by decide) (by decide) (by decide)

/-- Claim C5: for each selector in {Receive, Transmit, Both}, clearFifo reads
the Interrupt Identification Register, preserves the FIFO-enabled flag found
there (bits 7:6) as bit 0 of the FIFO Control Register byte it composes, sets
bit 1 for Receive or Both and bit 2 for Transmit or Both, and writes that
byte; when the enable flag is detected as set the written bytes are 3, 5 and 7
respectively. -/
theorem spec_C5 (bus : Bus) (target : Nat) (log : List BusOp) (iir : Nat)
    (ht : target = RxDFifo ∨ target = TxDFifo ∨ target = BothFifo)
    (hr : bus.readResp log 16 = .ok iir) :
    ∃ fcr : Nat,
      ClearFifo bus target log =
        ((match bus.writeResp (log ++ [.read 16]) 16 fcr with
          | none => Res.ok ()
          | some e => Res.err (.busErr e)), log ++ [.read 16, .write 16 fcr]) ∧
      fcr &&& 1 = (if (iir % 256) &&& 0xC0 = 0 then 0 else 1) ∧
      (fcr >>> 1) &&& 1 = (if target = RxDFifo ∨ target = BothFifo then 1 else 0) ∧
      (fcr >>> 2) &&& 1 = (if target = TxDFifo ∨ target = BothFifo then 1 else 0) ∧
      ((iir % 256) &&& 0xC0 ≠ 0 →
        fcr = if target = RxDFifo then 3 else if target = TxDFifo then 5 else 7) := by
  rcases ht with rfl | rfl | rfl <;> by_cases he : (iir % 256) &&& 0xC0 = 0
  · refine ⟨2, ?_, by rw [if_pos he]; decide, by decide, by decide, fun h => absurd he h⟩
    rcases hw : bus.writeResp (log ++ [BusOp.read 16]) 16 2 with _ | e <;>
      simp [ClearFifo, readReg, writeReg, hr, he, hw, regIIR, regFCR, RxDFifo, TxDFifo, BothFifo]
  · refine ⟨3, ?_, by rw [if_neg he]; decide, by decide, by decide, fun _ => by decide⟩
    rcases hw : bus.writeResp (log ++ [BusOp.read 16]) 16 3 with _ | e <;>
      simp [ClearFifo, readReg, writeReg, hr, he, hw, regIIR, regFCR, RxDFifo, TxDFifo, BothFifo]
  · refine ⟨4, ?_, by rw [if_pos he]; decide, by decide, by decide, fun h => absurd he h⟩
    rcases hw : bus.writeResp (log ++ [BusOp.read 16]) 16 4 with _ | e <;>
      simp [ClearFifo, readReg, writeReg, hr, he, hw, regIIR, regFCR, RxDFifo, TxDFifo, BothFifo]
  · refine ⟨5, ?_, by rw [if_neg he]; decide, by decide, by decide, fun _ => by decide⟩
    rcases hw : bus.writeResp (log ++ [BusOp.read 16]) 16 5 with _ | e <;>
      simp [ClearFifo, readReg, writeReg, hr, he, hw, regIIR, regFCR, RxDFifo, TxDFifo, BothFifo]
  · refine ⟨6, ?_, by rw [if_pos he]; decide, by decide, by decide, fun h => absurd he h⟩
    rcases hw : bus.writeResp (log ++ [BusOp.read 16]) 16 6 with _ | e <;>
      simp [ClearFifo, readReg, writeReg, hr, he, hw, regIIR, regFCR, RxDFifo, TxDFifo, BothFifo]
  · refine ⟨7, ?_, by rw [if_neg he]; decide, by decide, by decide, fun _ => by decide⟩
    rcases hw : bus.writeResp (log ++ [BusOp.read 16]) 16 7 with _ | e <;>
      simp [ClearFifo, readReg, writeReg, hr, he, hw, regIIR, regFCR, RxDFifo, TxDFifo, BothFifo]

/-- Witness for C5: on a bus whose identification register reports FIFO mode
enabled, clearing both FIFOs writes the byte 7 = 0b111. -/
theorem spec_C5_witness :
    ∃ fcr : Nat,
      ClearFifo busFifoOn BothFifo [] =
        ((match busFifoOn.writeResp ([] ++ [.read 16]) 16 fcr with
          | none => Res.ok ()
          | some e => Res.err (.busErr e)), [] ++ [.read 16, .write 16 fcr]) ∧
      fcr &&& 1 = (if (192 % 256) &&& 0xC0 = 0 then 0 else 1) ∧
      (fcr >>> 1) &&& 1 = (if BothFifo = RxDFifo ∨ BothFifo = BothFifo then 1 else 0) ∧
      (fcr >>> 2) &&& 1 = (if BothFifo = TxDFifo ∨ BothFifo = BothFifo then 1 else 0) ∧
      ((192 % 256) &&& 0xC0 ≠ 0 →
        fcr = if BothFifo = RxDFifo then 3 else if BothFifo = TxDFifo then 5 else 7) :=
  spec_C5 busFifoOn BothFifo [] 192 (Or.inr (Or.inr rfl)) rfl

/-- Claim C9: setBaudRate is not total in baud: with baud = 0 the divisor
computation is an integer division by zero, a Go runtime panic (crash) rather
than an error return; and Open applies no default for a zero-valued Baud
field, so an otherwise healthy Open with Baud = 0 crashes right after the
self-test and the Modem Control Register read. -/
theorem spec_C9 :
    (∀ (v : SC16IS7X0) (bus : Bus) (log : List BusOp) (m : Nat),
      bus.readResp log 32 = .ok m →
      setBaudRate v bus 0 log = (.crash, log ++ [.read 32])) ∧
    (∀ (conf : Config) (rv : List BusOp → Nat → Nat),
      conf.Baud = 0 → rv [.write 56 222] 56 % 256 = 222 →
      Open conf (mkOkBus rv) = (.crash, [.write 56 222, .read 56, .read 32])) := by
  constructor
  · intro v bus log m hm
    simp [setBaudRate, peekRegBit, readReg, regMCR, hm]
  · intro conf rv hb hspr
    simp [Open, mkOkBus, testChip, writeReg, readReg, regSPR, testValue, hspr,
      setBaudRate, peekRegBit, regMCR, hb]

/-- Witness for C9: a config with Baud left zero on an otherwise healthy bus
makes Open crash after the self-test and the prescaler read. -/
theorem spec_C9_witness :
    Open ⟨72, 0, 0, 14745600, 0, 0, 0, 0⟩ (mkOkBus (fun _ a => if a = 56 then 222 else 0)) =
      (.crash, [.write 56 222, .read 56, .read 32]) :=
  spec_C9.2 ⟨72, 0, 0, 14745600, 0, 0, 0, 0⟩ (fun _ a => if a = 56 then 222 else 0)
    rfl (by decide)

/-- Claim C2: on a bus where every transaction succeeds, setBaudRate picks the
prescaler from Modem Control Register bit 7 (4 when set, 1 otherwise),
computes the divisor as floor((crystalFreq / prescaler) / (baud × 16)) with
integer truncation, and writes its low byte to the divisor-latch low register
and its high byte to the divisor-latch high register (inside the LCR bit-7
bracket). -/
theorem spec_C2 (v : SC16IS7X0) (rv : List BusOp → Nat → Nat) (baud : Nat) (log : List BusOp)
    (hbaud : (baud * 16) % 4294967296 ≠ 0) :
    ∃ prescaler divisor a b : Nat,
      prescaler = (if (rv log 32 % 256) &&& 128 = 0 then 1 else 4) ∧
      divisor = ((v.xtalFreq % 4294967296) / prescaler) / ((baud * 16) % 4294967296) ∧
      setBaudRate v (mkOkBus rv) baud log =
        (.ok (), log ++ [.read 32, .read 24, .write 24 a,
          .write 0 (divisor &&& 0xFF),
          .write 8 ((divisor &&& 0xFF00) >>> 8),
          .read 24, .write 24 b]) := by
  have h1 : ∀ d : Nat, (d &&& 255) % 256 = d &&& 255 := fun d =>
    Nat.mod_eq_of_lt (lt_of_le_of_lt Nat.and_le_right (by norm_num))
  have h2 : ∀ d : Nat, ((d &&& 65280) >>> 8) % 256 = (d &&& 65280) >>> 8 := by
    intro d
    have hd : d &&& 65280 ≤ 65280 := Nat.and_le_right
    rw [Nat.shiftRight_eq_div_pow]
    have : (d &&& 65280) / 2 ^ 8 ≤ 65280 / 2 ^ 8 := Nat.div_le_div_right hd
    norm_num at this ⊢
    omega
  by_cases hc : (rv log 32 % 256) &&& 128 = 0
  · refine ⟨_, _,
      (rv (log ++ [BusOp.read 32]) 24 % 256 ||| 128) % 256,
      (rv (log ++ [BusOp.read 32, BusOp.read 24,
          BusOp.write 24 ((rv (log ++ [BusOp.read 32]) 24 % 256 ||| 128) % 256),
          BusOp.write 0 (v.xtalFreq % 4294967296 / (baud * 16 % 4294967296) &&& 255),
          BusOp.write 8 ((v.xtalFreq % 4294967296 / (baud * 16 % 4294967296) &&& 65280) >>> 8)])
        24 % 256 &&& 127) % 256,
      rfl, rfl, ?_⟩
    simp [setBaudRate, peekRegBit, readReg, writeReg, updateRegBit, mkOkBus,
      regMCR, regLCR, regDLL, regDLH, hbaud, hc, h1, h2]
  · refine ⟨_, _,
      (rv (log ++ [BusOp.read 32]) 24 % 256 ||| 128) % 256,
      (rv (log ++ [BusOp.read 32, BusOp.read 24,
          BusOp.write 24 ((rv (log ++ [BusOp.read 32]) 24 % 256 ||| 128) % 256),
          BusOp.write 0 (v.xtalFreq % 4294967296 / 4 / (baud * 16 % 4294967296) &&& 255),
          BusOp.write 8 ((v.xtalFreq % 4294967296 / 4 / (baud * 16 % 4294967296) &&& 65280) >>> 8)])
        24 % 256 &&& 127) % 256,
      rfl, rfl, ?_⟩
    simp [setBaudRate, peekRegBit, readReg, writeReg, updateRegBit, mkOkBus,
      regMCR, regLCR, regDLL, regDLH, hbaud, hc, h1, h2]

/-- Witness for C2: with crystal frequency 14745600 Hz, baud 9600 and the
prescaler read as 1 (MCR bit 7 clear), the divisor is 96 and the bytes written
to the divisor-latch low and high registers are 96 and 0. -/
theorem spec_C2_witness :
    ∃ a b : Nat,
      setBaudRate ⟨14745600, 1000000000⟩ (mkOkBus (fun _ _ => 0)) 9600 [] =
        (.ok (), [.read 32, .read 24, .write 24 a, .write 0 96, .write 8 0,
          .read 24, .write 24 b]) := by
  obtain ⟨p, d, a, b, hp, hd, h⟩ :=
    spec_C2 ⟨14745600, 1000000000⟩ (fun _ _ => 0) 9600 [] (by norm_num)
  refine ⟨a, b, ?_⟩
  rw [h]
  have hd96 : d = 96 := by rw [hd, hp]; decide
  subst hd96
  simp only [show (96 &&& 255 : Nat) = 96 from rfl,
    show ((96 &&& 65280 : Nat) >>> 8) = 0 from rfl, List.nil_append]

/-- append_read_replicate: folding one more read into a replicate block. -/
theorem append_read_replicate (log : List BusOp) (a k : Nat) :
    (log ++ [BusOp.read a]) ++ List.replicate k (BusOp.read a) =
      log ++ List.replicate (k + 1) (BusOp.read a) := by
  simp [List.replicate_succ]

/-- peekRegBit_ok_of_read: evaluation of peekRegBit on a successful read. -/
theorem peekRegBit_ok_of_read (bus : Bus) (log : List BusOp) (reg flag b : Nat)
    (hb : bus.readResp log ((reg <<< 3) % 256) = .ok b) :
    peekRegBit bus log reg flag =
      (.ok ((b % 256) &&& ((1 <<< flag) % 256) != 0), log ++ [.read ((reg <<< 3) % 256)]) := by
  simp [peekRegBit, readReg, hb]

/-- peekRegBit_err_shape: peekRegBit only fails with a propagated bus error. -/
theorem peekRegBit_err_shape (bus : Bus) (log l : List BusOp) (reg flag : Nat) (e : DriverErr)
    (h : peekRegBit bus log reg flag = (.err e, l)) : ∃ k, e = .busErr k := by
  rcases hr : bus.readResp log ((reg <<< 3) % 256) with e' | b <;>
    simp [peekRegBit, readReg, hr] at h
  exact ⟨e', h.1.symm⟩

/-- pollLoop_timeout_late: whenever the poll loop returns the timeout error,
some wall-clock observation made after entry was strictly past the deadline. -/
theorem pollLoop_timeout_late (bus : Bus) (clock : Nat → Nat) (dl reg flag : Nat) :
    ∀ (fuel : Nat) (log : List BusOp) (i : Nat) (l : List BusOp),
      pollLoop bus clock dl reg flag fuel log i = (.err .timeout, l) →
      ∃ j, i ≤ j ∧ dl < clock (j + 1) := by
  intro fuel
  induction fuel with
  | zero => intro log i l h; simp [pollLoop] at h
  | succ n ih =>
    intro log i l h
    unfold pollLoop at h
    rcases hp : peekRegBit bus log reg flag with ⟨r, l'⟩
    rw [hp] at h
    cases r with
    | ok ready =>
      cases ready with
      | true => simp at h
      | false =>
        simp only [Bool.false_eq_true, if_false] at h
        by_cases hdl : dl < clock (i + 1)
        · exact ⟨i, le_refl i, hdl⟩
        · rw [if_neg hdl] at h
          obtain ⟨j, hij, hj⟩ := ih l' (i + 1) l h
          exact ⟨j, by omega, hj⟩
    | err e =>
      obtain ⟨k, hk⟩ := peekRegBit_err_shape bus log l' reg flag e hp
      simp [hk] at h
    | crash => simp at h
    | diverge => simp at h

/-- pollLoop_err_shape: the poll loop only fails with the timeout error or a
propagated bus error. -/
theorem pollLoop_err_shape (bus : Bus) (clock : Nat → Nat) (dl reg flag : Nat) :
    ∀ (fuel : Nat) (log : List BusOp) (i : Nat) (e : DriverErr) (l : List BusOp),
      pollLoop bus clock dl reg flag fuel log i = (.err e, l) →
      e = .timeout ∨ ∃ k, e = .busErr k := by
  intro fuel
  induction fuel with
  | zero => intro log i e l h; simp [pollLoop] at h
  | succ n ih =>
    intro log i e l h
    unfold pollLoop at h
    rcases hp : peekRegBit bus log reg flag with ⟨r, l'⟩
    rw [hp] at h
    cases r with
    | ok ready =>
      cases ready with
      | true => simp at h
      | false =>
        simp only [Bool.false_eq_true, if_false] at h
        by_cases hdl : dl < clock (i + 1)
        · rw [if_pos hdl] at h
          simp at h
          exact Or.inl h.1.symm
        · rw [if_neg hdl] at h
          exact ih l' (i + 1) e l h
    | err e' =>
      obtain ⟨k, hk⟩ := peekRegBit_err_shape bus log l' reg flag e' hp
      simp at h
      exact Or.inr ⟨k, h.1 ▸ hk⟩
    | crash => simp at h
    | diverge => simp at h

/-- pollLoop_neverReady: when every read of the polled register succeeds with
the readiness bit clear, the loop returns the timeout error exactly at the
first wall-clock observation past the deadline, having issued one read per
iteration. -/
theorem pollLoop_neverReady (bus : Bus) (clock : Nat → Nat) (dl reg flag : Nat)
    (hok : ∀ l, ∃ b, bus.readResp l ((reg <<< 3) % 256) = .ok b ∧
        (b % 256) &&& ((1 <<< flag) % 256) = 0) :
    ∀ (n fuel i : Nat) (log : List BusOp),
      dl < clock (i + n + 1) → (∀ k, k < n → ¬ dl < clock (i + k + 1)) → n < fuel →
      pollLoop bus clock dl reg flag fuel log i =
        (.err .timeout, log ++ List.replicate (n + 1) (.read ((reg <<< 3) % 256))) := by
  intro n
  induction n with
  | zero =>
    intro fuel i log hn _ hfuel
    obtain ⟨f, rfl⟩ : ∃ f, fuel = f + 1 := ⟨fuel - 1, by omega⟩
    obtain ⟨b, hb, hbit⟩ := hok log
    have hn' : dl < clock (i + 1) := by simpa using hn
    unfold pollLoop
    rw [peekRegBit_ok_of_read bus log reg flag b hb]
    simp [hbit, hn', List.replicate_succ]
  | succ m ih =>
    intro fuel i log hn hfirst hfuel
    obtain ⟨f, rfl⟩ : ∃ f, fuel = f + 1 := ⟨fuel - 1, by omega⟩
    obtain ⟨b, hb, hbit⟩ := hok log
    have hdl0 : ¬ dl < clock (i + 1) := by simpa using hfirst 0 (by omega)
    have heq : (i + 1) + m + 1 = i + (m + 1) + 1 := by omega
    have h1 := ih f (i + 1) (log ++ [.read ((reg <<< 3) % 256)])
      (by rw [heq]; exact hn)
      (fun k hk => by
        have heq2 : (i + 1) + k + 1 = i + (k + 1) + 1 := by omega
        rw [heq2]
        exact hfirst (k + 1) (by omega))
      (by omega)
    unfold pollLoop
    rw [peekRegBit_ok_of_read bus log reg flag b hb]
    simp [hbit, hdl0, h1, List.replicate_succ, List.append_assoc]

/-- pollLoop_ready: when the readiness bit is first observed set at iteration
j, with every earlier iteration reading the bit clear and observing a
wall-clock time not past the deadline, the loop returns success after exactly
j+1 reads and no timeout error. -/
theorem pollLoop_ready (bus : Bus) (clock : Nat → Nat) (dl reg flag : Nat) :
    ∀ (j fuel i : Nat) (log : List BusOp),
      (∀ k, k < j →
        ∃ bk, bus.readResp (log ++ List.replicate k (.read ((reg <<< 3) % 256)))
            ((reg <<< 3) % 256) = .ok bk ∧
          (bk % 256) &&& ((1 <<< flag) % 256) = 0 ∧ ¬ dl < clock (i + k + 1)) →
      (∃ bj, bus.readResp (log ++ List.replicate j (.read ((reg <<< 3) % 256)))
          ((reg <<< 3) % 256) = .ok bj ∧
        (bj % 256) &&& ((1 <<< flag) % 256) ≠ 0) →
      j < fuel →
      pollLoop bus clock dl reg flag fuel log i =
        (.ok (), log ++ List.replicate (j + 1) (.read ((reg <<< 3) % 256))) := by
  intro j
  induction j with
  | zero =>
    intro fuel i log _ hj hfuel
    obtain ⟨f, rfl⟩ : ∃ f, fuel = f + 1 := ⟨fuel - 1, by omega⟩
    obtain ⟨b, hb, hbit⟩ := hj
    rw [List.replicate_zero, List.append_nil] at hb
    unfold pollLoop
    rw [peekRegBit_ok_of_read bus log reg flag b hb]
    simp [hbit, List.replicate_succ]
  | succ m ih =>
    intro fuel i log hpre hj hfuel
    obtain ⟨f, rfl⟩ : ∃ f, fuel = f + 1 := ⟨fuel - 1, by omega⟩
    obtain ⟨b, hb, hbit, hdl⟩ := hpre 0 (by omega)
    rw [List.replicate_zero, List.append_nil] at hb
    have hdl0 : ¬ dl < clock (i + 1) := by simpa using hdl
    have h1 := ih f (i + 1) (log ++ [.read ((reg <<< 3) % 256)])
      (fun k hk => by
        obtain ⟨bk, hbk, hbitk, hdlk⟩ := hpre (k + 1) (by omega)
        refine ⟨bk, ?_, hbitk, ?_⟩
        · rw [append_read_replicate]; exact hbk
        · have heq2 : (i + 1) + k + 1 = i + (k + 1) + 1 := by omega
          rw [heq2]; exact hdlk)
      (by
        obtain ⟨bj, hbj, hbitj⟩ := hj
        refine ⟨bj, ?_, hbitj⟩
        rw [append_read_replicate]; exact hbj)
      (by omega)
    unfold pollLoop
    rw [peekRegBit_ok_of_read bus log reg flag b hb]
    simp [hbit, hdl0, h1, List.replicate_succ, List.append_assoc]

/-- readCopy_ok: when every read of the receive holding register succeeds, the
copy loop copies exactly n further bytes with one register access each. -/
theorem readCopy_ok (bus : Bus) (hok : ∀ l, ∃ b, bus.readResp l 0 = .ok b) :
    ∀ (n : Nat) (log : List BusOp) (acc : List Nat),
      ∃ tail, readCopy bus n log acc =
        ((Int.ofNat (acc.length + n), none, acc ++ tail),
         log ++ List.replicate n (.read 0)) ∧
        tail.length = n := by
  intro n
  induction n with
  | zero =>
    intro log acc
    exact ⟨[], by simp [readCopy], rfl⟩
  | succ m ih =>
    intro log acc
    obtain ⟨b, hb⟩ := hok log
    obtain ⟨tail, htail, hlen⟩ := ih (log ++ [.read 0]) (acc ++ [b % 256])
    refine ⟨(b % 256) :: tail, ?_, by simp [hlen]⟩
    have hstep : readCopy bus (m + 1) log acc =
        readCopy bus m (log ++ [.read 0]) (acc ++ [b % 256]) := by
      simp [readCopy, ReadByte, readReg, regRHR, hb]
    rw [hstep, htail, append_read_replicate]
    simp [List.append_assoc, Nat.add_comm, Nat.add_left_comm, Nat.add_assoc]

/-- readCopy_inv: the count returned by the copy loop is always the number of
bytes in the returned buffer, and any error it reports is a bus error. -/
theorem readCopy_inv (bus : Bus) :
    ∀ (n : Nat) (log : List BusOp) (acc : List Nat) (m : Int) (oe : Option DriverErr)
      (bs : List Nat) (l : List BusOp),
      readCopy bus n log acc = ((m, oe, bs), l) →
      m = Int.ofNat bs.length ∧ ∀ e, oe = some e → ∃ k, e = .busErr k := by
  intro n
  induction n with
  | zero =>
    intro log acc m oe bs l h
    simp [readCopy] at h
    obtain ⟨⟨hm, hoe, hbs⟩, -⟩ := h
    subst hbs
    exact ⟨hm.symm, fun e he => by rw [← hoe] at he; cases he⟩
  | succ k ih =>
    intro log acc m oe bs l h
    rcases hr : bus.readResp log 0 with e' | b
    · simp [readCopy, ReadByte, readReg, regRHR, hr] at h
      obtain ⟨⟨hm, hoe, hbs⟩, -⟩ := h
      subst hbs
      exact ⟨hm.symm, fun e he => by rw [← hoe] at he; exact ⟨e', (Option.some_inj.mp he).symm⟩⟩
    · have : readCopy bus (k + 1) log acc = readCopy bus k (log ++ [.read 0]) (acc ++ [b % 256]) := by
        simp [readCopy, ReadByte, readReg, regRHR, hr]
      rw [this] at h
      exact ih _ _ _ _ _ _ h

/-- readCopy_err: a bus error at copy index i (with all earlier reads
succeeding) stops the loop with the partial count i and the i bytes read so
far. -/
theorem readCopy_err (bus : Bus) (e : Nat) :
    ∀ (i : Nat) (n : Nat) (log : List BusOp) (acc : List Nat),
      (∀ k, k < i → ∃ b, bus.readResp (log ++ List.replicate k (.read 0)) 0 = .ok b) →
      bus.readResp (log ++ List.replicate i (.read 0)) 0 = .error e →
      i < n →
      ∃ tail, readCopy bus n log acc =
        ((Int.ofNat (acc.length + i), some (.busErr e), acc ++ tail),
         log ++ List.replicate (i + 1) (.read 0)) ∧
        tail.length = i := by
  intro i
  induction i with
  | zero =>
    intro n log acc _ hi hn
    obtain ⟨m, rfl⟩ : ∃ m, n = m + 1 := ⟨n - 1, by omega⟩
    simp only [List.replicate, List.append_nil] at hi
    refine ⟨[], ?_, rfl⟩
    simp [readCopy, ReadByte, readReg, regRHR, hi, List.replicate_succ]
  | succ j ih =>
    intro n log acc hpre hi hn
    obtain ⟨m, rfl⟩ : ∃ m, n = m + 1 := ⟨n - 1, by omega⟩
    obtain ⟨b, hb⟩ := hpre 0 (by omega)
    simp only [List.replicate, List.append_nil] at hb
    have hstep : readCopy bus (m + 1) log acc =
        readCopy bus m (log ++ [.read 0]) (acc ++ [b % 256]) := by
      simp [readCopy, ReadByte, readReg, regRHR, hb]
    obtain ⟨tail, htail, hlen⟩ := ih m (log ++ [.read 0]) (acc ++ [b % 256])
      (fun k hk => by
        obtain ⟨bk, hbk⟩ := hpre (k + 1) (by omega)
        rw [append_read_replicate]
        exact ⟨bk, hbk⟩)
      (by rw [append_read_replicate]; exact hi)
      (by omega)
    refine ⟨(b % 256) :: tail, ?_, by simp [hlen]⟩
    rw [hstep, htail, append_read_replicate]
    simp [List.append_assoc, Nat.add_comm, Nat.add_left_comm, Nat.add_assoc]

/-- fifoDataLength_err_shape: a fifoDataLength failure is a propagated bus
error. -/
theorem fifoDataLength_err_shape (bus : Bus) (log : List BusOp) (flen : Int) (e : DriverErr)
    (l : List BusOp) (h : fifoDataLength bus log = ((flen, some e), l)) :
    ∃ k, e = .busErr k := by
  rcases hr : bus.readResp log ((regRXLVL <<< 3) % 256) with e' | b <;>
    simp [fifoDataLength, readReg, hr] at h
  · exact ⟨e', h.1.2.symm⟩

/-- Claim C4: when the data-ready poll succeeds and every subsequent register
read succeeds, Read copies exactly min(buffer length, FIFO level) bytes into
the buffer, one register access per byte, and returns that exact count with no
error. -/
theorem spec_C4 (v : SC16IS7X0) (bus : Bus) (clock : Nat → Nat) (fuel plen : Nat)
    (log l1 : List BusOp) (lv : Nat)
    (hpoll : pollLoop bus clock (clock 0 + v.timeout) regLSR 0 fuel log 0 = (.ok (), l1))
    (hlv : bus.readResp l1 72 = .ok lv)
    (hrhr : ∀ l, ∃ b, bus.readResp l 0 = .ok b) :
    ∃ bs : List Nat,
      Read v bus clock fuel plen log =
        (.ok (Int.ofNat (min plen (lv % 256)), none, bs),
         (l1 ++ [.read 72]) ++ List.replicate (min plen (lv % 256)) (.read 0)) ∧
      bs.length = min plen (lv % 256) := by
  rcases Nat.lt_or_ge plen (lv % 256) with hc | hc
  · have hmin : min plen (lv % 256) = plen := Nat.min_eq_left (by omega)
    obtain ⟨tail, htail, hlen⟩ := readCopy_ok bus hrhr plen (l1 ++ [.read 72]) []
    refine ⟨tail, ?_, by rw [hmin]; simpa using hlen⟩
    rw [hmin]
    have hcI : ((plen : Int)) < (lv : Int) % 256 := by exact_mod_cast hc
    simp [Read, hpoll, fifoDataLength, readReg, regRXLVL, hlv, hcI, htail]
  · have hmin : min plen (lv % 256) = lv % 256 := Nat.min_eq_right (by omega)
    have hc2 : ¬ plen < lv % 256 := by omega
    obtain ⟨tail, htail, hlen⟩ := readCopy_ok bus hrhr (lv % 256) (l1 ++ [.read 72]) []
    refine ⟨tail, ?_, by rw [hmin]; simpa using hlen⟩
    rw [hmin]
    have hc2I : ¬ ((plen : Int)) < (lv : Int) % 256 := by exact_mod_cast hc2
    have hcast : ((lv : Int) % 256).toNat = lv % 256 := by omega
    simp [Read, hpoll, fifoDataLength, readReg, regRXLVL, hlv, hc2I, hcast, htail]

/-- Witness for C4: a bus reporting data-ready, FIFO level 3 and byte 171
makes Read with a 5-byte buffer return count 3 with no error after one
FIFO-level read and three receive-register reads. -/
theorem spec_C4_witness :
    ∃ bs : List Nat,
      Read ⟨0, 5⟩ busReady (fun t => t) 10 5 [] =
        (.ok (Int.ofNat (min 5 (3 % 256)), none, bs),
         ([BusOp.read 40] ++ [.read 72]) ++ List.replicate (min 5 (3 % 256)) (.read 0)) ∧
      bs.length = min 5 (3 % 256) :=
  spec_C4 ⟨0, 5⟩ busReady (fun t => t) 10 5 [] [BusOp.read 40] 3 rfl rfl
    (fun _ => ⟨171, rfl⟩)

/-- Claim C7: a bus error while copying bytes out of the receive FIFO (after
the data-ready poll and the FIFO-level query succeeded) makes Read return the
count of bytes successfully read so far together with that bus error. -/
theorem spec_C7 (v : SC16IS7X0) (bus : Bus) (clock : Nat → Nat) (fuel plen : Nat)
    (log l1 : List BusOp) (lv i e : Nat)
    (hpoll : pollLoop bus clock (clock 0 + v.timeout) regLSR 0 fuel log 0 = (.ok (), l1))
    (hlv : bus.readResp l1 72 = .ok lv)
    (hpre : ∀ k, k < i →
      ∃ b, bus.readResp ((l1 ++ [.read 72]) ++ List.replicate k (.read 0)) 0 = .ok b)
    (hi : bus.readResp ((l1 ++ [.read 72]) ++ List.replicate i (.read 0)) 0 = .error e)
    (hlt : i < min plen (lv % 256)) :
    ∃ bs : List Nat,
      Read v bus clock fuel plen log =
        (.ok (Int.ofNat i, some (.busErr e), bs),
         (l1 ++ [.read 72]) ++ List.replicate (i + 1) (.read 0)) ∧
      bs.length = i := by
  rcases Nat.lt_or_ge plen (lv % 256) with hc | hc
  · have hmin : min plen (lv % 256) = plen := Nat.min_eq_left (by omega)
    obtain ⟨tail, htail, hlen⟩ := readCopy_err bus e i plen (l1 ++ [.read 72]) [] hpre hi
      (by rw [hmin] at hlt; omega)
    refine ⟨tail, ?_, hlen⟩
    have hcI : ((plen : Int)) < (lv : Int) % 256 := by exact_mod_cast hc
    simp [Read, hpoll, fifoDataLength, readReg, regRXLVL, hlv, hcI, htail]
  · have hmin : min plen (lv % 256) = lv % 256 := Nat.min_eq_right (by omega)
    have hc2 : ¬ plen < lv % 256 := by omega
    obtain ⟨tail, htail, hlen⟩ := readCopy_err bus e i (lv % 256) (l1 ++ [.read 72]) [] hpre hi
      (by rw [hmin] at hlt; omega)
    refine ⟨tail, ?_, hlen⟩
    have hc2I : ¬ ((plen : Int)) < (lv : Int) % 256 := by exact_mod_cast hc2
    have hcast : ((lv : Int) % 256).toNat = lv % 256 := by omega
    simp [Read, hpoll, fifoDataLength, readReg, regRXLVL, hlv, hc2I, hcast, htail]

/-- Witness for C7: a bus whose receive register fails with bus error 9 at the
third copy read makes Read return count 2 with that bus error, having copied
two bytes. -/
theorem spec_C7_witness :
    ∃ bs : List Nat,
      Read ⟨0, 5⟩ busCopyErr (fun t => t) 10 8 [] =
        (.ok (Int.ofNat 2, some (.busErr 9), bs),
         ([BusOp.read 40] ++ [.read 72]) ++ List.replicate (2 + 1) (.read 0)) ∧
      bs.length = 2 :=
  spec_C7 ⟨0, 5⟩ busCopyErr (fun t => t) 10 8 [] [BusOp.read 40] 4 2 9 rfl rfl
    (fun k hk => by interval_cases k <;> exact ⟨171, rfl⟩) rfl (by decide)

/-- Claim C8: a run of the writeByte or read poll loop that never observes its
readiness bit set returns the dedicated timeout error at the first wall-clock
observation strictly past the deadline (entry time plus configured timeout),
so never earlier than the configured timeout; conversely a timeout returned by
WriteByte or Read implies some wall-clock observation after entry exceeded the
deadline; and when readiness is observed before the deadline check fails,
WriteByte returns no timeout error and proceeds to write the byte to the
transmit register. -/
theorem spec_C8 :
    (∀ (bus : Bus) (clock : Nat → Nat) (dl reg flag n fuel : Nat) (log : List BusOp),
      (∀ l, ∃ b, bus.readResp l ((reg <<< 3) % 256) = .ok b ∧
          (b % 256) &&& ((1 <<< flag) % 256) = 0) →
      dl < clock (n + 1) → (∀ k, k < n → ¬ dl < clock (k + 1)) → n < fuel →
      pollLoop bus clock dl reg flag fuel log 0 =
        (.err .timeout, log ++ List.replicate (n + 1) (.read ((reg <<< 3) % 256)))) ∧
    (∀ (v : SC16IS7X0) (bus : Bus) (clock : Nat → Nat) (fuel c : Nat) (log l : List BusOp),
      WriteByte v bus clock fuel c log = (.err .timeout, l) →
      ∃ j, clock 0 + v.timeout < clock (j + 1)) ∧
    (∀ (v : SC16IS7X0) (bus : Bus) (clock : Nat → Nat) (fuel plen : Nat) (log l : List BusOp)
      (n : Int) (bs : List Nat),
      Read v bus clock fuel plen log = (.ok (n, some .timeout, bs), l) →
      ∃ j, clock 0 + v.timeout < clock (j + 1)) ∧
    (∀ (v : SC16IS7X0) (bus : Bus) (clock : Nat → Nat) (fuel c j : Nat) (log : List BusOp),
      (∀ k, k < j → ∃ bk, bus.readResp (log ++ List.replicate k (.read 40)) 40 = .ok bk ∧
          (bk % 256) &&& 32 = 0 ∧ ¬ clock 0 + v.timeout < clock (k + 1)) →
      (∃ bj, bus.readResp (log ++ List.replicate j (.read 40)) 40 = .ok bj ∧
          (bj % 256) &&& 32 ≠ 0) →
      j < fuel →
      ∃ r : Res Unit,
        WriteByte v bus clock fuel c log =
          (r, (log ++ List.replicate (j + 1) (.read 40)) ++ [.write 0 (c % 256)]) ∧
        r ≠ .err .timeout) := by
  refine ⟨?_, ?_, ?_, ?_⟩
  · intro bus clock dl reg flag n fuel log hok hn hf hfuel
    exact pollLoop_neverReady bus clock dl reg flag hok n fuel 0 log
      (by simpa using hn) (fun k hk => by simpa using hf k hk) hfuel
  · intro v bus clock fuel c log l h
    rcases hpoll : pollLoop bus clock (clock 0 + v.timeout) regLSR 5 fuel log 0 with ⟨r, l'⟩
    cases r with
    | ok a =>
      simp [WriteByte, hpoll, writeReg, regTHR] at h
      rcases hw : bus.writeResp l' 0 (c % 256) with _ | e' <;> simp [hw] at h
    | err e =>
      simp [WriteByte, hpoll] at h
      obtain ⟨he, hl⟩ := h
      subst he
      obtain ⟨j, -, hj⟩ := pollLoop_timeout_late bus clock (clock 0 + v.timeout) regLSR 5
        fuel log 0 l' hpoll
      exact ⟨j, hj⟩
    | crash => simp [WriteByte, hpoll] at h
    | diverge => simp [WriteByte, hpoll] at h
  · intro v bus clock fuel plen log l n bs h
    rcases hpoll : pollLoop bus clock (clock 0 + v.timeout) regLSR 0 fuel log 0 with ⟨r, l'⟩
    cases r with
    | ok a =>
      simp [Read, hpoll] at h
      rcases hfifo : fifoDataLength bus l' with ⟨⟨flen, oe'⟩, l1⟩
      cases oe' with
      | none =>
        simp [hfifo] at h
        rcases hrc : readCopy bus
            (if (plen : Int) < flen then (plen : Int) else flen).toNat l1 [] with
          ⟨⟨m, oe2, bs2⟩, l2⟩
        simp [hrc] at h
        obtain ⟨⟨-, hoe2, -⟩, -⟩ := h
        obtain ⟨-, herr⟩ := readCopy_inv bus _ _ _ _ _ _ _ hrc
        obtain ⟨k, hk⟩ := herr .timeout hoe2
        simp at hk
      | some e1 =>
        simp [hfifo] at h
        obtain ⟨⟨-, he1, -⟩, -⟩ := h
        obtain ⟨k, hk⟩ := fifoDataLength_err_shape bus l' flen e1 l1 hfifo
        rw [hk] at he1
        simp at he1
    | err e =>
      cases e with
      | timeout =>
        obtain ⟨j, -, hj⟩ := pollLoop_timeout_late bus clock (clock 0 + v.timeout) regLSR 0
          fuel log 0 l' hpoll
        exact ⟨j, hj⟩
      | busErr k => simp [Read, hpoll] at h
      | scratchpadMismatch => simp [Read, hpoll] at h
      | unsupportedDataBits => simp [Read, hpoll] at h
    | crash => simp [Read, hpoll] at h
    | diverge => simp [Read, hpoll] at h
  · intro v bus clock fuel c j log hpre hj hfuel
    have hok := pollLoop_ready bus clock (clock 0 + v.timeout) regLSR 5 j fuel 0 log
      (fun k hk => by
        obtain ⟨bk, hbk, hbitk, hdlk⟩ := hpre k hk
        exact ⟨bk, hbk, hbitk, by simpa using hdlk⟩)
      hj hfuel
    simp [regLSR] at hok
    refine ⟨(match bus.writeResp (log ++ List.replicate (j + 1) (.read 40)) 0 (c % 256) with
             | none => Res.ok ()
             | some e => Res.err (.busErr e)), ?_, ?_⟩
    · rcases hw : bus.writeResp (log ++ List.replicate (j + 1) (.read 40)) 0 (c % 256)
        with _ | e' <;>
        simp [WriteByte, hok, writeReg, regTHR, regLSR, hw]
    · rcases hw : bus.writeResp (log ++ List.replicate (j + 1) (.read 40)) 0 (c % 256)
        with _ | e' <;> simp [hw]

/-- Witness for C8: on a bus that always reads the Line Status Register as 0,
with the identity clock and timeout 5, the transmit-readiness poll loop
returns the timeout error after six reads, at the first clock observation (6)
strictly past the deadline. -/
theorem spec_C8_witness :
    pollLoop busNever (fun t => t) 5 regLSR 5 10 [] 0 =
      (.err .timeout, List.replicate 6 (BusOp.read 40)) := by
  have h := spec_C8.1 busNever (fun t => t) 5 regLSR 5 5 10 []
    (fun _ => ⟨0, rfl, rfl⟩) (by norm_num) (fun k hk => by simp; omega) (by norm_num)
  simpa using h

/-- writeLoop_err_neg: whenever the buffered-write loop returns with an
error, the count it returns is the sentinel -1, regardless of how many bytes
were already written. -/
theorem writeLoop_err_neg (v : SC16IS7X0) (bus : Bus) (clocks : Nat → Nat → Nat) (fuel : Nat) :
    ∀ (p : List Nat) (idx written : Nat) (log : List BusOp) (n : Int) (e : DriverErr)
      (l : List BusOp),
      writeLoop v bus clocks fuel p idx written log = (.ok (n, some e), l) → n = -1 := by
  intro p
  induction p with
  | nil =>
    intro idx written log n e l h
    simp [writeLoop] at h
  | cons c rest ih =>
    intro idx written log n e l h
    rcases hw : WriteByte v bus (clocks idx) fuel c log with ⟨r, l'⟩
    cases r with
    | ok a =>
      simp [writeLoop, hw] at h
      exact ih _ _ _ _ _ _ h
    | err e' =>
      simp [writeLoop, hw] at h
      obtain ⟨⟨h1, -⟩, -⟩ := h
      omega
    | crash => simp [writeLoop, hw] at h
    | diverge => simp [writeLoop, hw] at h

/-- Claim C10: at the public byte-stream interface the count returned with an
error can be a negative sentinel: Write returns -1 with the error whenever any
per-byte write fails; Read returns -2 with the timeout error, and a
non-negative count with a non-nil error only for a bus error while copying (in
which case the count is the number of bytes copied); a count of -1 from Read
always comes with a bus error. -/
theorem spec_C10 :
    (∀ (v : SC16IS7X0) (bus : Bus) (clocks : Nat → Nat → Nat) (fuel : Nat) (p : List Nat)
      (log : List BusOp) (n : Int) (e : DriverErr) (l : List BusOp),
      Write v bus clocks fuel p log = (.ok (n, some e), l) → n = -1) ∧
    (∀ (v : SC16IS7X0) (bus : Bus) (clock : Nat → Nat) (fuel plen : Nat) (log : List BusOp)
      (n : Int) (e : DriverErr) (bs : List Nat) (l : List BusOp),
      Read v bus clock fuel plen log = (.ok (n, some e, bs), l) →
        (e = .timeout → n = -2) ∧
        (0 ≤ n → (∃ k, e = .busErr k) ∧ n = Int.ofNat bs.length) ∧
        (n = -1 → ∃ k, e = .busErr k)) := by
  constructor
  · intro v bus clocks fuel p log n e l h
    exact writeLoop_err_neg v bus clocks fuel p 0 0 log n e l h
  · intro v bus clock fuel plen log n e bs l h
    rcases hpoll : pollLoop bus clock (clock 0 + v.timeout) regLSR 0 fuel log 0 with ⟨r, l'⟩
    cases r with
    | ok a =>
      simp [Read, hpoll] at h
      rcases hfifo : fifoDataLength bus l' with ⟨⟨flen, oe'⟩, l1⟩
      cases oe' with
      | none =>
        simp [hfifo] at h
        rcases hrc : readCopy bus
            (if (plen : Int) < flen then (plen : Int) else flen).toNat l1 [] with
          ⟨⟨m, oe2, bs2⟩, l2⟩
        simp [hrc] at h
        obtain ⟨⟨hm, hoe2, hbs⟩, -⟩ := h
        obtain ⟨hm2, herr⟩ := readCopy_inv bus _ _ _ _ _ _ _ hrc
        obtain ⟨k, hk⟩ := herr e hoe2
        refine ⟨fun ht => ?_, fun _ => ⟨⟨k, hk⟩, ?_⟩, fun _ => ⟨k, hk⟩⟩
        · rw [ht] at hk; simp at hk
        · rw [← hm, hm2, hbs]
      | some e1 =>
        simp [hfifo] at h
        obtain ⟨⟨hn, he1, -⟩, -⟩ := h
        obtain ⟨k, hk⟩ := fifoDataLength_err_shape bus l' flen e1 l1 hfifo
        have he : e = .busErr k := by rw [← he1, hk]
        refine ⟨fun ht => ?_, fun hge => absurd hge (by omega), fun _ => ⟨k, he⟩⟩
        · rw [ht] at he; simp at he
    | err e' =>
      cases e' with
      | timeout =>
        simp [Read, hpoll] at h
        obtain ⟨⟨hn, he, -⟩, -⟩ := h
        exact ⟨fun _ => by omega, fun hge => absurd hge (by omega),
          fun hneg => absurd hneg (by omega)⟩
      | busErr k =>
        simp [Read, hpoll] at h
        obtain ⟨⟨hn, he, -⟩, -⟩ := h
        refine ⟨fun ht => ?_, fun hge => absurd hge (by omega), fun _ => ⟨k, he.symm⟩⟩
        · rw [ht] at he; simp at he
      | scratchpadMismatch =>
        rcases pollLoop_err_shape bus clock (clock 0 + v.timeout) regLSR 0 fuel log 0
          DriverErr.scratchpadMismatch l' hpoll with h1 | ⟨k, hk⟩
        · simp at h1
        · simp at hk
      | unsupportedDataBits =>
        rcases pollLoop_err_shape bus clock (clock 0 + v.timeout) regLSR 0 fuel log 0
          DriverErr.unsupportedDataBits l' hpoll with h1 | ⟨k, hk⟩
        · simp at h1
        · simp at hk
    | crash => simp [Read, hpoll] at h
    | diverge => simp [Read, hpoll] at h

/-- Witness for C10: a failing Line Status Register read makes Write return
the sentinel -1 with the bus error after one attempted byte, and a timed-out
Read returns the sentinel -2 with the timeout error. -/
theorem spec_C10_witness :
    ((-1 : Int) = -1) ∧
    ((DriverErr.timeout = DriverErr.timeout → (-2 : Int) = -2) ∧
     ((0 : Int) ≤ -2 → (∃ k, DriverErr.timeout = DriverErr.busErr k) ∧
        (-2 : Int) = Int.ofNat (List.length ([] : List Nat))) ∧
     ((-2 : Int) = -1 → ∃ k, DriverErr.timeout = DriverErr.busErr k)) :=
  ⟨spec_C10.1 ⟨0, 5⟩ busLsrErr (fun _ t => t) 1 [65] [] (-1) (.busErr 7) [BusOp.read 40] rfl,
   spec_C10.2 ⟨0, 5⟩ busNever (fun t => t) 10 5 [] (-2) .timeout []
     (List.replicate 6 (BusOp.read 40)) rfl⟩

/-- closeCount: the number of close transactions in a log. -/
def closeCount : List BusOp → Nat
  | [] => 0
  | BusOp.close :: rest => closeCount rest + 1
  | _ :: rest => closeCount rest

/-- closeCount_append: close transactions add up over concatenation. -/
theorem closeCount_append (l1 l2 : List BusOp) :
    closeCount (l1 ++ l2) = closeCount l1 + closeCount l2 := by
  induction l1 with
  | nil => simp [closeCount]
  | cons a t ih => cases a <;> simp [closeCount, ih] <;> try omega

/-- closeCount_readReg: a register read never closes the handle. -/
theorem closeCount_readReg (bus : Bus) (log : List BusOp) (reg : Nat) :
    closeCount (readReg bus log reg).2 = closeCount log := by
  cases h : bus.readResp log ((reg <<< 3) % 256) <;>
    simp [readReg, h, closeCount_append, closeCount]

/-- closeCount_writeReg: a register write never closes the handle. -/
theorem closeCount_writeReg (bus : Bus) (log : List BusOp) (reg value : Nat) :
    closeCount (writeReg bus log reg value).2 = closeCount log := by
  simp [writeReg, closeCount_append, closeCount]

/-- closeCount_peekRegBit: a bit peek never closes the handle. -/
theorem closeCount_peekRegBit (bus : Bus) (log : List BusOp) (reg flag : Nat) :
    closeCount (peekRegBit bus log reg flag).2 = closeCount log := by
  rcases hr : readReg bus log reg with ⟨r, l⟩
  have hl : closeCount l = closeCount log := by
    rw [← closeCount_readReg bus log reg, hr]
  cases r <;> simp [peekRegBit, hr, hl]

/-- closeCount_updateRegBit: a read-modify-write never closes the handle. -/
theorem closeCount_updateRegBit (bus : Bus) (log : List BusOp) (reg flag : Nat) (value : Bool) :
    closeCount (updateRegBit bus log reg flag value).2 = closeCount log := by
  rcases hr : readReg bus log reg with ⟨r, l⟩
  have hl : closeCount l = closeCount log := by
    rw [← closeCount_readReg bus log reg, hr]
  cases r with
  | error e => simp [updateRegBit, hr, hl]
  | ok flags =>
    rcases hw : writeReg bus l reg
        (if value then flags ||| ((1 <<< flag) % 256)
         else flags &&& (255 ^^^ ((1 <<< flag) % 256))) with ⟨w, l1⟩
    have hl1 : closeCount l1 = closeCount l := by
      rw [← closeCount_writeReg bus l reg
        (if value then flags ||| ((1 <<< flag) % 256)
         else flags &&& (255 ^^^ ((1 <<< flag) % 256))), hw]
    cases w <;> simp [updateRegBit, hr, hw, hl1, hl]

/-- closeCount_testChip: the self test never closes the handle. -/
theorem closeCount_testChip (bus : Bus) (log : List BusOp) :
    closeCount (testChip bus log).2 = closeCount log := by
  rcases hw : writeReg bus log regSPR testValue with ⟨w, l⟩
  have hl : closeCount l = closeCount log := by
    rw [← closeCount_writeReg bus log regSPR testValue, hw]
  cases w with
  | some e => simp [testChip, hw, hl]
  | none =>
    rcases hr : readReg bus l regSPR with ⟨r, l1⟩
    have hl1 : closeCount l1 = closeCount l := by
      rw [← closeCount_readReg bus l regSPR, hr]
    cases r with
    | error e => simp [testChip, hw, hr, hl1, hl]
    | ok rv =>
      by_cases hv : rv = testValue <;> simp [testChip, hw, hr, hv, hl1, hl]

/-- closeCount_setBaudRate: baud programming never closes the handle. -/
theorem closeCount_setBaudRate (v : SC16IS7X0) (bus : Bus) (baud : Nat) (log : List BusOp) :
    closeCount (setBaudRate v bus baud log).2 = closeCount log := by
  rcases hp : peekRegBit bus log regMCR 7 with ⟨r, l⟩
  have hl : closeCount l = closeCount log := by
    rw [← closeCount_peekRegBit bus log regMCR 7, hp]
  cases r with
  | err e => simp [setBaudRate, hp, hl]
  | crash => simp [setBaudRate, hp, hl]
  | diverge => simp [setBaudRate, hp, hl]
  | ok clkDiv =>
    by_cases hb : (baud * 16) % 4294967296 = 0
    · simp [setBaudRate, hp, hb, hl]
    · rcases hu1 : updateRegBit bus l regLCR 7 true with ⟨r1, l1⟩
      have hl1 : closeCount l1 = closeCount l := by
        rw [← closeCount_updateRegBit bus l regLCR 7 true, hu1]
      cases r1 with
      | err e => simp [setBaudRate, hp, hb, hu1, hl1, hl]
      | crash => simp [setBaudRate, hp, hb, hu1, hl1, hl]
      | diverge => simp [setBaudRate, hp, hb, hu1, hl1, hl]
      | ok a =>
        set dv := ((v.xtalFreq % 4294967296) / (if clkDiv then 4 else 1)) /
          ((baud * 16) % 4294967296) with hdv
        rcases hw1 : writeReg bus l1 regDLL (dv &&& 0xFF) with ⟨w1, l2⟩
        have hl2 : closeCount l2 = closeCount l1 := by
          rw [← closeCount_writeReg bus l1 regDLL (dv &&& 0xFF), hw1]
        cases w1 with
        | some e => simp [setBaudRate, hp, hb, hu1, hw1, hdv, hl2, hl1, hl]
        | none =>
          rcases hw2 : writeReg bus l2 regDLH ((dv &&& 0xFF00) >>> 8) with ⟨w2, l3⟩
          have hl3 : closeCount l3 = closeCount l2 := by
            rw [← closeCount_writeReg bus l2 regDLH ((dv &&& 0xFF00) >>> 8), hw2]
          cases w2 with
          | some e => simp [setBaudRate, hp, hb, hu1, hw1, hw2, hdv, hl3, hl2, hl1, hl]
          | none =>
            rcases hu2 : updateRegBit bus l3 regLCR 7 false with ⟨r2, l4⟩
            have hl4 : closeCount l4 = closeCount l3 := by
              rw [← closeCount_updateRegBit bus l3 regLCR 7 false, hu2]
            cases r2 <;>
              simp [setBaudRate, hp, hb, hu1, hw1, hw2, hu2, hdv, hl4, hl3, hl2, hl1, hl]

/-- closeCount_enableFifo: enabling the FIFO never closes the handle. -/
theorem closeCount_enableFifo (bus : Bus) (useFifo : Bool) (log : List BusOp) :
    closeCount (enableFifo bus useFifo log).2 = closeCount log := by
  rcases hw : writeReg bus log regFCR (if useFifo then 1 else 0) with ⟨w, l⟩
  have hl : closeCount l = closeCount log := by
    rw [← closeCount_writeReg bus log regFCR (if useFifo then 1 else 0), hw]
  cases w <;> simp [enableFifo, hw, hl]

/-- closeCount_setUARTAttributes: line-attribute programming never closes the
handle. -/
theorem closeCount_setUARTAttributes (bus : Bus) (dataBits stopBits parity : Nat)
    (log : List BusOp) :
    closeCount (setUARTAttributes bus dataBits stopBits parity log).2 = closeCount log := by
  have hwb : ∀ base, closeCount (setUARTAttributesWrite bus base stopBits parity log).2 =
      closeCount log := by
    intro base
    rcases hw : writeReg bus log regLCR (composeLCR base stopBits parity) with ⟨w, l⟩
    have hl : closeCount l = closeCount log := by
      rw [← closeCount_writeReg bus log regLCR (composeLCR base stopBits parity), hw]
    cases w <;> simp [setUARTAttributesWrite, hw, hl]
  by_cases h5 : dataBits = 5
  · simp [setUARTAttributes, h5, hwb 0]
  · by_cases h6 : dataBits = 6
    · simp [setUARTAttributes, h5, h6, hwb 1]
    · by_cases h7 : dataBits = 7
      · simp [setUARTAttributes, h5, h6, h7, hwb 2]
      · by_cases h8 : dataBits = 8
        · simp [setUARTAttributes, h5, h6, h7, h8, hwb 3]
        · simp [setUARTAttributes, h5, h6, h7, h8, closeCount]

/-- closeCount_ClearFifo: clearing the FIFOs never closes the handle. -/
theorem closeCount_ClearFifo (bus : Bus) (clearTarget : Nat) (log : List BusOp) :
    closeCount (ClearFifo bus clearTarget log).2 = closeCount log := by
  rcases hr : readReg bus log regIIR with ⟨r, l⟩
  have hl : closeCount l = closeCount log := by
    rw [← closeCount_readReg bus log regIIR, hr]
  cases r with
  | error e => simp [ClearFifo, hr, hl]
  | ok iirFlags =>
    simp [ClearFifo, hr]
    split
    · rename_i l1 heq
      have h2 := congrArg Prod.snd heq
      simp at h2
      show closeCount l1 = closeCount log
      rw [← h2, closeCount_writeReg]
      exact hl
    · rename_i e l1 heq
      have h2 := congrArg Prod.snd heq
      simp at h2
      show closeCount l1 = closeCount log
      rw [← h2, closeCount_writeReg]
      exact hl

/-- Claim C3: whenever any step of the Open sequence (self-test, baud
programming, FIFO enable, line-attribute programming, clear-both-FIFOs) fails,
Open closes the partially-opened bus handle exactly once and returns that
step's error with no device object; in particular a scratchpad self-test
readback mismatch makes Open return the dedicated mismatch error after only
the two self-test transactions and the single close, attempting no baud, FIFO
or line-attribute programming. -/
theorem spec_C3 :
    (∀ (conf : Config) (bus : Bus), bus.acquire = none →
      ∀ (e : DriverErr) (l : List BusOp), Open conf bus = (.err e, l) → closeCount l = 1) ∧
    (∀ (conf : Config) (bus : Bus) (rv : Nat),
      bus.acquire = none →
      bus.writeResp [] 56 222 = none →
      bus.readResp [.write 56 222] 56 = .ok rv →
      rv % 256 ≠ 222 →
      Open conf bus = (.err .scratchpadMismatch, [.write 56 222, .read 56, .close])) := by
  constructor
  · intro conf bus hacq e l h
    rcases h0 : testChip bus [] with ⟨r0, l0⟩
    have hc0 : closeCount l0 = 0 := by
      have hx := closeCount_testChip bus []
      rw [h0] at hx
      simpa [closeCount] using hx
    cases r0 with
    | err e0 =>
      simp [Open, hacq, h0, Close] at h
      obtain ⟨-, hl⟩ := h
      subst hl
      simp [closeCount_append, closeCount, hc0]
    | crash => simp [Open, hacq, h0] at h
    | diverge => simp [Open, hacq, h0] at h
    | ok a =>
      rcases h1 : setBaudRate
          ⟨conf.XtalFreq, if conf.Timeout = 0 then 1000000000 else conf.Timeout⟩
          bus conf.Baud l0 with ⟨r1, l1⟩
      have hc1 : closeCount l1 = 0 := by
        have hx := closeCount_setBaudRate
          ⟨conf.XtalFreq, if conf.Timeout = 0 then 1000000000 else conf.Timeout⟩
          bus conf.Baud l0
        rw [h1] at hx
        simpa [hc0] using hx
      cases r1 with
      | err e1 =>
        simp [Open, hacq, h0, h1, Close] at h
        obtain ⟨-, hl⟩ := h
        subst hl
        simp [closeCount_append, closeCount, hc1]
      | crash => simp [Open, hacq, h0, h1] at h
      | diverge => simp [Open, hacq, h0, h1] at h
      | ok a1 =>
        rcases h2 : enableFifo bus true l1 with ⟨r2, l2⟩
        have hc2 : closeCount l2 = 0 := by
          have hx := closeCount_enableFifo bus true l1
          rw [h2] at hx
          simpa [hc1] using hx
        cases r2 with
        | err e2 =>
          simp [Open, hacq, h0, h1, h2, Close] at h
          obtain ⟨-, hl⟩ := h
          subst hl
          simp [closeCount_append, closeCount, hc2]
        | crash => simp [Open, hacq, h0, h1, h2] at h
        | diverge => simp [Open, hacq, h0, h1, h2] at h
        | ok a2 =>
          rcases h3 : setUARTAttributes bus
              (if conf.Size = 0 then DefaultSize else conf.Size)
              (if conf.StopBits = 0 then Stop1 else conf.StopBits)
              (if conf.Parity = 0 then ParityNone else conf.Parity) l2 with ⟨r3, l3⟩
          have hc3 : closeCount l3 = 0 := by
            have hx := closeCount_setUARTAttributes bus
              (if conf.Size = 0 then DefaultSize else conf.Size)
              (if conf.StopBits = 0 then Stop1 else conf.StopBits)
              (if conf.Parity = 0 then ParityNone else conf.Parity) l2
            rw [h3] at hx
            simpa [hc2] using hx
          cases r3 with
          | err e3 =>
            simp [Open, hacq, h0, h1, h2, h3, Close] at h
            obtain ⟨-, hl⟩ := h
            subst hl
            simp [closeCount_append, closeCount, hc3]
          | crash => simp [Open, hacq, h0, h1, h2, h3] at h
          | diverge => simp [Open, hacq, h0, h1, h2, h3] at h
          | ok a3 =>
            rcases h4 : ClearFifo bus BothFifo l3 with ⟨r4, l4⟩
            have hc4 : closeCount l4 = 0 := by
              have hx := closeCount_ClearFifo bus BothFifo l3
              rw [h4] at hx
              simpa [hc3] using hx
            cases r4 with
            | err e4 =>
              simp [Open, hacq, h0, h1, h2, h3, h4, Close] at h
              obtain ⟨-, hl⟩ := h
              subst hl
              simp [closeCount_append, closeCount, hc4]
            | crash => simp [Open, hacq, h0, h1, h2, h3, h4] at h
            | diverge => simp [Open, hacq, h0, h1, h2, h3, h4] at h
            | ok a4 => simp [Open, hacq, h0, h1, h2, h3, h4] at h
  · intro conf bus rv hacq hw hr hne
    simp [Open, hacq, testChip, writeReg, readReg, regSPR, testValue, hw, hr, hne, Close]

/-- Witness for C3: on a bus whose scratchpad reads back 0 instead of the
sentinel, Open returns the mismatch error with exactly the two self-test
transactions and one close in the log. -/
theorem spec_C3_witness :
    Open ⟨72, 0, 9600, 14745600, 0, 0, 0, 0⟩ busNever =
      (.err .scratchpadMismatch, [.write 56 222, .read 56, .close]) :=
  spec_C3.2 ⟨72, 0, 9600, 14745600, 0, 0, 0, 0⟩ busNever 0 rfl rfl rfl (by decide)

end sc16is7x0
